import Mathlib

/-!
Verification of the video-assembly pipeline of the `Addcaptionstovideo`
repository.  The Python sources are shallowly embedded: pure computations
become Lean functions over `ℚ` / `ℤ` / `ℕ`, the module-level mutable
usage ledger (`USAGE_DATA`) becomes an explicit `UsageState` threaded
through the functions that read or mutate it, image buffers become
total pixel functions with explicit dimensions, and fallible steps
(subprocess calls, exceptions raised by effect plugins) become `Option`
values or boolean oracles supplied as arguments.
-/

namespace AddCaptions

/-- Python `dict` lookup, for dictionaries represented as association
lists (the code only ever inserts a key that is absent, so first-match
lookup agrees with Python's last-write-wins semantics). -/
def dictGet {α : Type} : List (String × α) → String → Option α
  | [], _ => none
  | (k, v) :: t, key => if k = key then some v else dictGet t key

/-- Python's `int()` applied to a real number: truncation toward zero.
`Int.div` is T-division (it truncates toward zero) and a rational's
denominator is positive, so `q.num.div q.den` is exactly `int(q)`. -/
def pyInt (q : ℚ) : ℤ := q.num.tdiv q.den

/-- One pre-scaled BGRA frame of an overlay asset
(`subscribe_effect.load_gifs` output).  `pixel r c ch` is the value of
channel `ch` (0,1,2 = colour, 3 = alpha) at row `r`, column `c`. -/
structure GifFrame where
  height : ℕ
  width : ℕ
  pixel : ℤ → ℤ → ℕ → ℚ

/-- A BGR video frame (the buffer streamed to the encoder). -/
structure Frame where
  height : ℕ
  width : ℕ
  pixel : ℤ → ℤ → ℕ → ℚ

/-- The content of `gif_usage.json` / the module-level `USAGE_DATA`
dictionary: `{"used": [...], "video_map": {...}}`. -/
structure UsageState where
  used : List String
  video_map : List (String × String)
deriving DecidableEq

/-- `save_usage` (subscribe_effect.py:79-84): serialises the usage
dictionary to the JSON file.  The file's content is modelled as the
structured value itself. -/
def save_usage (st : UsageState) : Option UsageState := some st

/-- `load_usage` (subscribe_effect.py:69-76): reads the JSON usage file,
falling back to `{"used": [], "video_map": {}}` when the file is absent
or unreadable. -/
def load_usage : Option UsageState → UsageState
  | some st => st
  | none => ⟨[], []⟩

/-- Result of one call to `pick_gif_for_video`: the name that was served
(if any), the frame list returned to the caller, and the usage state
after the call. -/
structure PickResult where
  name : Option String
  frames : List GifFrame
  state : UsageState

/-- `pick_gif_for_video` (subscribe_effect.py:93-119), with the global
`ALL_GIFS` table and `USAGE_DATA` made explicit, together with the
internally chosen gif name.  `random.choice` over a list of length `n`
is modelled by the oracle index `choice % n`. -/
def pick_gif_for_video_core (gifs : List (String × List GifFrame))
    (st : UsageState) (video_id : String) (choice : ℕ) : PickResult :=
  match dictGet st.video_map video_id with
  | some name =>
      -- Return already assigned GIF for this video
      match dictGet gifs name with
      | some frames => ⟨some name, frames, st⟩
      | none =>
          -- ALL_GIFS.get(name, random.choice(list(ALL_GIFS.values())) if ALL_GIFS else [])
          if gifs.length = 0 then ⟨some name, [], st⟩
          else ⟨some name, (gifs.map Prod.snd).getD (choice % gifs.length) [], st⟩
  | none =>
      let all_names := gifs.map Prod.fst
      if all_names.length = 0 then ⟨none, [], st⟩  -- No GIFs loaded
      else
        -- used = set(USAGE_DATA.get("used", [])); reset cycle if we've used all
        let baseUsed := if all_names.length ≤ st.used.dedup.length then [] else st.used
        let available0 := all_names.filter (fun n => n ∉ baseUsed)
        let available := if available0.isEmpty then all_names else available0
        let chosen := available.getD (choice % available.length) ""
        ⟨some chosen, (dictGet gifs chosen).getD [],
          ⟨baseUsed ++ [chosen], st.video_map ++ [(video_id, chosen)]⟩⟩

/-- The view of `pick_gif_for_video` seen by its caller: the frame list
and the updated ledger. -/
def pick_gif_for_video (gifs : List (String × List GifFrame))
    (st : UsageState) (video_id : String) (choice : ℕ) :
    List GifFrame × UsageState :=
  let r := pick_gif_for_video_core gifs st video_id choice
  (r.frames, r.state)

/-- `overlay_transparent` (subscribe_effect.py:125-137): alpha-blend
`overlay` into `background` with top-left corner `(x, y)`; a no-op when
the overlay would not fit entirely inside the background. -/
def overlay_transparent (background : Frame) (overlay : GifFrame)
    (x y : ℤ) : Frame :=
  let h : ℤ := overlay.height
  let w : ℤ := overlay.width
  -- Boundary check
  if y + h > (background.height : ℤ) ∨ x + w > (background.width : ℤ) ∨
      y < 0 ∨ x < 0 then
    background
  else
    { background with
      pixel := fun r c ch =>
        if y ≤ r ∧ r < y + h ∧ x ≤ c ∧ c < x + w ∧ ch < 3 then
          let a := overlay.pixel (r - y) (c - x) 3 / 255
          a * overlay.pixel (r - y) (c - x) ch +
            (1 - a) * background.pixel r c ch
        else background.pixel r c ch }

/-- `apply_effect_frame` (subscribe_effect.py:143-175), with the global
gif table and usage state explicit; returns the produced frame and the
usage state after the embedded `pick_gif_for_video` call. -/
def apply_effect_frame (gifs : List (String × List GifFrame))
    (st : UsageState) (frame : Frame) (frame_idx : ℕ) (fps : ℕ)
    (video_id : String) (choice : ℕ) : Frame × UsageState :=
  if gifs.length = 0 then (frame, st)
  else
    let pr := pick_gif_for_video gifs st video_id choice
    let gif_frames := pr.1
    let st' := pr.2
    if gif_frames.length = 0 then (frame, st')
    else
      let total_gif_frames : ℤ := gif_frames.length
      -- Show GIF from 1 second to 6 seconds (5 seconds duration)
      let start_sec : ℚ := 1
      let duration_sec : ℚ := 5
      let current_sec : ℚ := (frame_idx : ℚ) / (fps : ℚ)
      if current_sec < start_sec then (frame, st')
      else
        let elapsed_in_effect := current_sec - start_sec
        if duration_sec < elapsed_in_effect then (frame, st')
        else
          let gif_idx : ℕ :=
            ((pyInt ((elapsed_in_effect / duration_sec) * total_gif_frames)).emod
              total_gif_frames).toNat
          let overlay := gif_frames.getD gif_idx ⟨0, 0, fun _ _ _ => 0⟩
          let pad : ℤ := 12
          let x := (frame.width : ℤ) - overlay.width - pad
          let y := (frame.height : ℤ) - overlay.height - pad
          (overlay_transparent frame overlay x y, st')

/-- The per-frame effect loop of `create_video` (editit.py:198-209): each
effect either returns a new frame or raises (modelled as `none`), in
which case the exception is caught, logged and the frame kept as it was
before that effect; the remaining effects still run. -/
def applyEffects : List (Frame → Option Frame) → Frame → Frame
  | [], frame => frame
  | e :: rest, frame =>
      applyEffects rest (match e frame with
        | some f => f
        | none => frame)

/-- Observable outcome of one `create_video` call (editit.py:110-236). -/
structure EncodeResult where
  launched : Bool
  framesWritten : ℕ
  killed : Bool
  success : Bool
deriving DecidableEq

/-- `create_video` (editit.py:110-236) as a function of its failure
oracles: `imgLoaded` is whether `cv2.imread` succeeded, `probeDuration`
the `ffprobe` duration (`none` = ffprobe raised), `writeFailsAt` an
exception raised while streaming frame `k` (caught by the outer
`except`, which kills the process), and `waitResult` the outcome of
`process.wait(timeout=30)` — `none` for `TimeoutExpired` (the process
is killed), `some code` for an exit with that return code. -/
def create_video (imgLoaded : Bool) (probeDuration : Option ℚ) (fps : ℕ)
    (writeFailsAt : Option ℕ) (waitResult : Option ℤ) : EncodeResult :=
  if imgLoaded = false then ⟨false, 0, false, false⟩
  else
    match probeDuration with
    | none => ⟨false, 0, false, false⟩
    | some duration =>
        let total_frames := pyInt (duration * fps)
        if total_frames ≤ 0 then ⟨false, 0, false, false⟩
        else
          match writeFailsAt with
          | some k => ⟨true, min k total_frames.toNat, true, false⟩
          | none =>
              match waitResult with
              | none => ⟨true, total_frames.toNat, true, false⟩
              | some code =>
                  if code ≠ 0 then ⟨true, total_frames.toNat, false, false⟩
                  else ⟨true, total_frames.toNat, false, true⟩

/-- Observable outcome of processing one (image, audio) pair in the
`__main__` loop of editit.py. -/
structure PairOutcome where
  success : Bool
  captionCalls : ℕ
  renderCalls : ℕ
  srtFile : Option String
deriving DecidableEq

/-- The render part of the retry loop (editit.py:272-299) once captions
exist: attempts are numbered from `attempt`, at most `fuel` of them are
made, `render n` is the outcome of `create_video` on attempt `n`
(an unhandled exception counts as `false`).  Returns (success, number
of render attempts made). -/
def run_render_attempts (render : ℕ → Bool) : ℕ → ℕ → Bool × ℕ
  | _, 0 => (false, 0)
  | attempt, fuel + 1 =>
      if render attempt then (true, 1)
      else
        let r := run_render_attempts render (attempt + 1) fuel
        (r.1, r.2 + 1)

/-- The per-pair retry loop of the orchestrator (editit.py:267-301):
`captionResult` is what `generate_srt` returns on the single call made
on attempt 1 (`none` = failure), `render` the per-attempt outcome of
`create_video`. -/
def process_pair (maxRetries : ℕ) (captionResult : Option String)
    (render : ℕ → Bool) : PairOutcome :=
  if maxRetries = 0 then ⟨false, 0, 0, none⟩
  else
    match captionResult with
    | none => ⟨false, 1, 0, none⟩
    | some s =>
        let r := run_render_attempts render 1 maxRetries
        ⟨r.1, 1, r.2, some s⟩

/-- The final cleanup after the retry loop (editit.py:304-323): the
filesystem is a list of existing paths; the temporary srt file is
removed when present, and the two source inputs are removed only when
the pair succeeded. -/
def final_cleanup (fs : List String) (srtFile : Option String)
    (videoSuccess : Bool) (audPath imgPath : String) : List String :=
  let fs1 :=
    match srtFile with
    | some s => if s ∈ fs then fs.erase s else fs
    | none => fs
  if videoSuccess then (fs1.erase audPath).erase imgPath else fs1

/-- A sequence of `pick_gif_for_video` calls: one call per element of
`reqs` (a job identity together with its `random.choice` oracle index),
threading the usage ledger, and collecting the names served. -/
def pick_run (gifs : List (String × List GifFrame)) :
    List (String × ℕ) → UsageState → List String × UsageState
  | [], st => ([], st)
  | (vid, ch) :: rest, st =>
      let r := pick_gif_for_video_core gifs st vid ch
      let rr := pick_run gifs rest r.state
      (r.name.toList ++ rr.1, rr.2)

/-! ## Shared sample data for concrete evaluations -/

/-- A 64×64 all-black sample frame. -/
def sampleFrame : Frame := ⟨64, 64, fun _ _ _ => 0⟩

/-- A 1×1 fully opaque white overlay frame. -/
def sampleOverlay : GifFrame := ⟨1, 1, fun _ _ _ => 255⟩

/-- A one-asset gif table. -/
def sampleGifs : List (String × List GifFrame) := [("g.gif", [sampleOverlay])]

/-- A two-asset gif table (frame lists irrelevant for selection). -/
def sampleGifs2 : List (String × List GifFrame) := [("a.gif", []), ("b.gif", [])]

/-- A ledger that already binds the job identity `"v"` to the sample
asset. -/
def sampleUsage : UsageState := ⟨["g.gif"], [("v", "g.gif")]⟩

/-- A 1280×720 all-black frame. -/
def sampleFrameHD : Frame := ⟨720, 1280, fun _ _ _ => 0⟩

/-- A 320×180 overlay frame with uniform half alpha. -/
def sampleOverlayHD : GifFrame := ⟨180, 320, fun _ _ _ => 128⟩

/-- A one-asset gif table holding the 320×180 overlay. -/
def sampleGifsHD : List (String × List GifFrame) := [("g.gif", [sampleOverlayHD])]

/-! ## Association-list lookup lemmas -/

theorem dictGet_append_of_none {α : Type} {l₁ : List (String × α)}
    (l₂ : List (String × α)) (k : String) (h : dictGet l₁ k = none) :
    dictGet (l₁ ++ l₂) k = dictGet l₂ k := by
  induction l₁ with
  | nil => rfl
  | cons p t ih =>
    obtain ⟨k', v⟩ := p
    by_cases hk : k' = k
    · simp [dictGet, hk] at h
    · simp only [dictGet, if_neg hk] at h
      simpa [dictGet, hk] using ih h

theorem dictGet_of_mem_keys {α : Type} {l : List (String × α)} {k : String}
    (h : k ∈ l.map Prod.fst) : ∃ v, dictGet l k = some v := by
  induction l with
  | nil => simp at h
  | cons p t ih =>
    obtain ⟨k', v⟩ := p
    by_cases hk : k' = k
    · exact ⟨v, by simp [dictGet, hk]⟩
    · have : k ∈ t.map Prod.fst := by
        simpa [hk, Ne.symm hk] using h
      simpa [dictGet, hk] using ih this

/-! ## C4 — failing effects are isolated -/

/-- C4: in the per-frame effect loop an effect that raises is caught and
skipped: the frame keeps its pre-plugin value, every later effect in the
sequence still runs, and an always-failing effect yields output
identical to the same sequence without it. -/
theorem applyEffects_failing_effect_isolated
    (pre post : List (Frame → Option Frame)) (e : Frame → Option Frame)
    (he : ∀ f, e f = none) (frame : Frame) :
    applyEffects (pre ++ e :: post) frame = applyEffects (pre ++ post) frame := by
  induction pre generalizing frame with
  | nil => simp [applyEffects, he]
  | cons p t ih => cases hp : p frame <;> simp [applyEffects, hp, ih]

/-- Witness for C4 at a concrete effect list and frame. -/
theorem applyEffects_failing_effect_isolated_witness :
    applyEffects ([] ++ (fun _ => none) :: []) sampleFrame =
      applyEffects ([] ++ []) sampleFrame :=
  applyEffects_failing_effect_isolated [] [] (fun _ => none)
    (fun _ => rfl) sampleFrame

/-! ## C9 — zero-length audio is rejected before the encoder starts -/

/-- C9: when the computed frame count `int(duration * fps)` is not
positive, `create_video` returns `False` without launching the encoder
subprocess and without writing any frame. -/
theorem create_video_short_audio (d : ℚ) (fps : ℕ)
    (writeFailsAt : Option ℕ) (waitResult : Option ℤ)
    (h : pyInt (d * fps) ≤ 0) :
    create_video true (some d) fps writeFailsAt waitResult =
      ⟨false, 0, false, false⟩ := by
  simp [create_video, h]

/-- Witness for C9: a zero-second audio track. -/
theorem create_video_short_audio_witness :
    pyInt ((0 : ℚ) * (10 : ℕ)) ≤ 0 ∧
      create_video true (some 0) 10 none (some 0) = ⟨false, 0, false, false⟩ :=
  ⟨by simp [pyInt], create_video_short_audio 0 10 none (some 0) (by simp [pyInt])⟩

/-! ## C7 — encoder failure semantics -/

/-- C7: `create_video` returns `False` whenever the encoder subprocess
exits non-zero; when the finalize wait times out the subprocess is
killed and the call returns `False`; and it returns `True` only when all
frames were streamed and the subprocess exited with code zero. -/
theorem create_video_failure_semantics (imgLoaded : Bool)
    (probeDuration : Option ℚ) (fps : ℕ) (writeFailsAt : Option ℕ)
    (waitResult : Option ℤ) :
    (∀ c, waitResult = some c → c ≠ 0 →
      (create_video imgLoaded probeDuration fps writeFailsAt waitResult).success = false) ∧
    (waitResult = none →
      (create_video imgLoaded probeDuration fps writeFailsAt waitResult).success = false ∧
      ((create_video imgLoaded probeDuration fps writeFailsAt waitResult).launched = true →
        writeFailsAt = none →
        (create_video imgLoaded probeDuration fps writeFailsAt waitResult).killed = true)) ∧
    ((create_video imgLoaded probeDuration fps writeFailsAt waitResult).success = true →
      writeFailsAt = none ∧ waitResult = some 0 ∧
      ∃ d, probeDuration = some d ∧ 0 < pyInt (d * fps) ∧
        (create_video imgLoaded probeDuration fps writeFailsAt waitResult).framesWritten =
          (pyInt (d * fps)).toNat) := by
  cases imgLoaded with
  | false => simp [create_video]
  | true =>
    cases probeDuration with
    | none => simp [create_video]
    | some d =>
      by_cases hd : pyInt (d * fps) ≤ 0
      · simp [create_video, hd]
      · cases writeFailsAt with
        | some k => simp [create_video, hd]
        | none =>
          cases waitResult with
          | none => simp [create_video, hd]
          | some c =>
            by_cases hc : c = 0
            · subst hc
              simp [create_video, hd]
              exact lt_of_not_le hd
            · simp [create_video, hd, hc]

/-- Witness for C7: a non-zero exit code yields a failed job. -/
theorem create_video_failure_semantics_witness :
    (create_video true (some 1) 10 none (some 1)).success = false :=
  (create_video_failure_semantics true (some 1) 10 none (some 1)).1 1 rfl
    (by decide)

/-! ## C5 — caption generation runs at most once per pair -/

/-- C5: caption generation is called at most once per pair no matter how
many render attempts happen; a caption failure ends the pair with no
render attempt; and with `MAX_EDIT_RETRIES = 3` a render that fails
twice and succeeds on the third attempt ends in success with exactly one
caption call. -/
theorem process_pair_caption_once (maxRetries : ℕ)
    (captionResult : Option String) (render : ℕ → Bool) (s : String) :
    (process_pair maxRetries captionResult render).captionCalls ≤ 1 ∧
    (captionResult = none →
      (process_pair maxRetries captionResult render).renderCalls = 0 ∧
      (process_pair maxRetries captionResult render).success = false) ∧
    (render 1 = false → render 2 = false → render 3 = true →
      process_pair 3 (some s) render = ⟨true, 1, 3, some s⟩) := by
  refine ⟨?_, ?_, ?_⟩
  · cases maxRetries with
    | zero => simp [process_pair]
    | succ n => cases captionResult <;> simp [process_pair]
  · intro hc
    cases maxRetries with
    | zero => simp [process_pair]
    | succ n => subst hc; simp [process_pair]
  · intro h1 h2 h3
    have e3 : run_render_attempts render 3 1 = (true, 1) := by
      simp [run_render_attempts, h3]
    have e2 : run_render_attempts render 2 2 = (true, 2) := by
      rw [show (2 : ℕ) = 1 + 1 from rfl, run_render_attempts]
      simp [h2, e3]
    have e1 : run_render_attempts render 1 3 = (true, 3) := by
      rw [show (3 : ℕ) = 2 + 1 from rfl, run_render_attempts]
      simp [h1, e2]
    simp [process_pair, e1]

/-- Witness for C5 with a render oracle that succeeds on attempt 3. -/
theorem process_pair_caption_once_witness :
    (process_pair 3 (some "a.srt") (fun n => 3 ≤ n)).captionCalls ≤ 1 ∧
      process_pair 3 (some "a.srt") (fun n => 3 ≤ n) = ⟨true, 1, 3, some "a.srt"⟩ :=
  ⟨(process_pair_caption_once 3 (some "a.srt") (fun n => 3 ≤ n) "a.srt").1,
    (process_pair_caption_once 3 (some "a.srt") (fun n => 3 ≤ n) "a.srt").2.2
      (by decide) (by decide) (by decide)⟩

/-! ## C6 — artifact and source lifecycle after the retry loop -/

/-- C6: after the retry loop the temporary caption file is removed in
both terminal states; on success both source inputs are removed as
well, while on exhausted failure both source inputs are preserved. -/
theorem final_cleanup_lifecycle (fs : List String) (hnd : fs.Nodup)
    (s aud img : String) (videoSuccess : Bool)
    (hsa : s ≠ aud) (hsi : s ≠ img) :
    s ∉ final_cleanup fs (some s) videoSuccess aud img ∧
    (aud ∉ final_cleanup fs (some s) true aud img ∧
      img ∉ final_cleanup fs (some s) true aud img) ∧
    ((aud ∈ final_cleanup fs (some s) false aud img ↔ aud ∈ fs) ∧
      (img ∈ final_cleanup fs (some s) false aud img ↔ img ∈ fs)) := by
  have hnd1 : (if s ∈ fs then fs.erase s else fs).Nodup := by
    split
    · exact hnd.erase s
    · exact hnd
  have hs1 : s ∉ (if s ∈ fs then fs.erase s else fs) := by
    split
    · exact List.Nodup.not_mem_erase hnd
    · assumption
  refine ⟨?_, ⟨?_, ?_⟩, ⟨?_, ?_⟩⟩
  · cases videoSuccess with
    | false => simpa [final_cleanup] using hs1
    | true =>
      simp only [final_cleanup, if_pos rfl]
      intro hmem
      exact hs1 (List.mem_of_mem_erase (List.mem_of_mem_erase hmem))
  · simp only [final_cleanup, if_pos rfl]
    intro hmem
    exact ((hnd1.mem_erase_iff).mp (List.mem_of_mem_erase hmem)).1 rfl
  · simp only [final_cleanup, if_pos rfl]
    intro hmem
    exact (((hnd1.erase aud).mem_erase_iff).mp hmem).1 rfl
  · simp only [final_cleanup, Bool.false_eq_true, if_false]
    split
    · rw [hnd.mem_erase_iff]
      exact ⟨fun h => h.2, fun h => ⟨hsa.symm, h⟩⟩
    · exact Iff.rfl
  · simp only [final_cleanup, Bool.false_eq_true, if_false]
    split
    · rw [hnd.mem_erase_iff]
      exact ⟨fun h => h.2, fun h => ⟨hsi.symm, h⟩⟩
    · exact Iff.rfl

/-- Witness for C6 on a concrete three-file filesystem. -/
theorem final_cleanup_lifecycle_witness :
    "a.srt" ∉ final_cleanup ["a.srt", "x.mp3", "y.png"] (some "a.srt") true "x.mp3" "y.png" ∧
      "x.mp3" ∉ final_cleanup ["a.srt", "x.mp3", "y.png"] (some "a.srt") true "x.mp3" "y.png" ∧
      ("x.mp3" ∈ final_cleanup ["a.srt", "x.mp3", "y.png"] (some "a.srt") false "x.mp3" "y.png" ↔
        "x.mp3" ∈ ["a.srt", "x.mp3", "y.png"]) := by
  have h := final_cleanup_lifecycle ["a.srt", "x.mp3", "y.png"] (by decide)
    "a.srt" "x.mp3" "y.png" true (by decide) (by decide)
  exact ⟨h.1, h.2.1.1, h.2.2.1⟩

/-! ## C10 — alpha blending is confined to the overlay rectangle -/

/-- C10: blending an overlay of size `w×h` at an in-bounds position
`(x, y)` can change only the pixels with rows in `[y, y+h)`, columns in
`[x, x+w)` and channel below 3; every other pixel value and the frame's
dimensions are unchanged. -/
theorem overlay_transparent_frame_effect (bg : Frame) (ov : GifFrame)
    (x y : ℤ) (hx : 0 ≤ x) (hy : 0 ≤ y)
    (hxw : x + (ov.width : ℤ) ≤ bg.width) (hyh : y + (ov.height : ℤ) ≤ bg.height) :
    (overlay_transparent bg ov x y).width = bg.width ∧
    (overlay_transparent bg ov x y).height = bg.height ∧
    ∀ r c ch, (r < y ∨ y + (ov.height : ℤ) ≤ r ∨ c < x ∨ x + (ov.width : ℤ) ≤ c ∨ 3 ≤ ch) →
      (overlay_transparent bg ov x y).pixel r c ch = bg.pixel r c ch := by
  have hguard : ¬(y + (ov.height : ℤ) > (bg.height : ℤ) ∨
      x + (ov.width : ℤ) > (bg.width : ℤ) ∨ y < 0 ∨ x < 0) := by
    push_neg
    exact ⟨hyh, hxw, hy, hx⟩
  simp only [overlay_transparent, if_neg hguard]
  refine ⟨trivial, trivial, fun r c ch hout => ?_⟩
  rw [if_neg]
  rintro ⟨h1, h2, h3, h4, h5⟩
  rcases hout with h | h | h | h | h
  · exact absurd h1 (not_le.mpr h)
  · exact absurd h2 (not_lt.mpr h)
  · exact absurd h3 (not_le.mpr h)
  · exact absurd h4 (not_lt.mpr h)
  · exact absurd h5 (not_lt.mpr h)

/-- Witness for C10: a 1×1 overlay at the origin of the sample frame
leaves a pixel outside the overlay rectangle unchanged. -/
theorem overlay_transparent_frame_effect_witness :
    (overlay_transparent sampleFrame sampleOverlay 0 0).width = sampleFrame.width ∧
      (overlay_transparent sampleFrame sampleOverlay 0 0).pixel 5 5 0 =
        sampleFrame.pixel 5 5 0 := by
  have h := overlay_transparent_frame_effect sampleFrame sampleOverlay 0 0
    (by decide) (by decide) (by decide) (by decide)
  exact ⟨h.1, h.2.2 5 5 0 (by decide)⟩

/-! ## Characterisation of one unbound `pick_gif_for_video` call -/

/-- One call with an unbound job identity: with `B` the used-list after
the possible cycle reset, when some name remains available the call
serves a name chosen from the available names, appends it to `B`, and
binds the job identity to it. -/
theorem pick_core_step (gifs : List (String × List GifFrame)) (st : UsageState)
    (vid : String) (choice : ℕ) (B : List String)
    (hub : dictGet st.video_map vid = none)
    (hne : (gifs.map Prod.fst).length ≠ 0)
    (hB : (if (gifs.map Prod.fst).length ≤ st.used.dedup.length then ([] : List String)
            else st.used) = B)
    (hA : (gifs.map Prod.fst).filter (fun n => n ∉ B) ≠ []) :
    ∃ c, c ∈ (gifs.map Prod.fst).filter (fun n => n ∉ B) ∧
      pick_gif_for_video_core gifs st vid choice =
        ⟨some c, (dictGet gifs c).getD [], ⟨B ++ [c], st.video_map ++ [(vid, c)]⟩⟩ := by
  have hlen : 0 < ((gifs.map Prod.fst).filter (fun n => n ∉ B)).length :=
    List.length_pos.mpr hA
  have hidx : choice % ((gifs.map Prod.fst).filter (fun n => n ∉ B)).length <
      ((gifs.map Prod.fst).filter (fun n => n ∉ B)).length := Nat.mod_lt _ hlen
  refine ⟨((gifs.map Prod.fst).filter (fun n => n ∉ B)).getD
      (choice % ((gifs.map Prod.fst).filter (fun n => n ∉ B)).length) "", ?_, ?_⟩
  · rw [List.getD_eq_getElem _ _ hidx]
    exact List.getElem_mem _
  · simp only [pick_gif_for_video_core, hub]
    rw [if_neg hne, hB, if_neg (by simpa [List.isEmpty_iff] using hA)]

/-- One call with an unbound job identity, mid-cycle (strictly fewer
used names than assets): the served name is fresh. -/
theorem pick_core_fresh_step (gifs : List (String × List GifFrame))
    (st : UsageState) (vid : String) (choice : ℕ)
    (hub : dictGet st.video_map vid = none)
    (hn : (gifs.map Prod.fst).Nodup) (hud : st.used.Nodup)
    (hlt : st.used.length < (gifs.map Prod.fst).length) :
    ∃ c, c ∈ gifs.map Prod.fst ∧ c ∉ st.used ∧
      pick_gif_for_video_core gifs st vid choice =
        ⟨some c, (dictGet gifs c).getD [],
          ⟨st.used ++ [c], st.video_map ++ [(vid, c)]⟩⟩ := by
  have hne : (gifs.map Prod.fst).length ≠ 0 := by omega
  have hB : (if (gifs.map Prod.fst).length ≤ st.used.dedup.length then ([] : List String)
      else st.used) = st.used := by
    rw [hud.dedup, if_neg (by omega)]
  have hA : (gifs.map Prod.fst).filter (fun n => n ∉ st.used) ≠ [] := by
    intro hmt
    have hsub : gifs.map Prod.fst ⊆ st.used := by
      intro n hmem
      by_contra hns
      have hmemf : n ∈ (gifs.map Prod.fst).filter (fun n => n ∉ st.used) :=
        List.mem_filter.mpr ⟨hmem, by simpa using hns⟩
      rw [hmt] at hmemf
      exact absurd hmemf (List.not_mem_nil n)
    exact absurd ((hn.subperm hsub).length_le) (by omega)
  obtain ⟨c, hc, heq⟩ := pick_core_step gifs st vid choice st.used hub hne hB hA
  obtain ⟨hcL, hcB⟩ := List.mem_filter.mp hc
  exact ⟨c, hcL, by simpa using hcB, heq⟩

/-- One call with an unbound job identity at the end of a cycle (every
name used): the used set is reset and the call leaves exactly the newly
served name in it. -/
theorem pick_core_reset_step (gifs : List (String × List GifFrame))
    (st : UsageState) (vid : String) (choice : ℕ)
    (hub : dictGet st.video_map vid = none)
    (hne : (gifs.map Prod.fst).length ≠ 0)
    (hge : (gifs.map Prod.fst).length ≤ st.used.dedup.length) :
    ∃ c, c ∈ gifs.map Prod.fst ∧
      pick_gif_for_video_core gifs st vid choice =
        ⟨some c, (dictGet gifs c).getD [], ⟨[c], st.video_map ++ [(vid, c)]⟩⟩ := by
  have hB : (if (gifs.map Prod.fst).length ≤ st.used.dedup.length then ([] : List String)
      else st.used) = [] := if_pos hge
  have hfe : (gifs.map Prod.fst).filter (fun n => n ∉ ([] : List String)) =
      gifs.map Prod.fst := by
    simp
  have hA : (gifs.map Prod.fst).filter (fun n => n ∉ ([] : List String)) ≠ [] := by
    rw [hfe]
    exact fun h => hne (by simp [h])
  obtain ⟨c, hc, heq⟩ := pick_core_step gifs st vid choice [] hub hne hB hA
  rw [hfe] at hc
  exact ⟨c, hc, by simpa using heq⟩

/-- One call with an unbound job identity and distinct asset names:
some name is served, appended to the (possibly reset) used list, and
bound to the job identity. -/
theorem pick_core_unbound_serves (gifs : List (String × List GifFrame))
    (st : UsageState) (vid : String) (choice : ℕ)
    (hub : dictGet st.video_map vid = none)
    (hn : (gifs.map Prod.fst).Nodup)
    (hne : (gifs.map Prod.fst).length ≠ 0) :
    ∃ c B, c ∈ gifs.map Prod.fst ∧
      pick_gif_for_video_core gifs st vid choice =
        ⟨some c, (dictGet gifs c).getD [],
          ⟨B ++ [c], st.video_map ++ [(vid, c)]⟩⟩ := by
  by_cases hge : (gifs.map Prod.fst).length ≤ st.used.dedup.length
  · obtain ⟨c, hcL, heq⟩ := pick_core_reset_step gifs st vid choice hub hne hge
    exact ⟨c, [], hcL, by simpa using heq⟩
  · have hB : (if (gifs.map Prod.fst).length ≤ st.used.dedup.length
        then ([] : List String) else st.used) = st.used := if_neg hge
    have hA : (gifs.map Prod.fst).filter (fun n => n ∉ st.used) ≠ [] := by
      intro hmt
      have hsub : gifs.map Prod.fst ⊆ st.used.dedup := by
        intro n hmem
        rw [List.mem_dedup]
        by_contra hns
        have hmemf : n ∈ (gifs.map Prod.fst).filter (fun n => n ∉ st.used) :=
          List.mem_filter.mpr ⟨hmem, by simpa using hns⟩
        rw [hmt] at hmemf
        exact absurd hmemf (List.not_mem_nil n)
      exact hge ((hn.subperm hsub).length_le)
    obtain ⟨c, hc, heq⟩ := pick_core_step gifs st vid choice st.used hub hne hB hA
    exact ⟨c, st.used, (List.mem_filter.mp hc).1, heq⟩

/-! ## C2 — selection is idempotent per job identity -/

/-- C2: once a job identity has been bound by a first call, a second
call — here made on the state read back from the persisted ledger —
returns the same name and the same frames and leaves the ledger
unchanged, so the binding is never changed. -/
theorem pick_gif_for_video_idempotent (gifs : List (String × List GifFrame))
    (st : UsageState) (vid : String) (c1 c2 : ℕ)
    (hub : dictGet st.video_map vid = none)
    (hn : (gifs.map Prod.fst).Nodup)
    (hne : (gifs.map Prod.fst).length ≠ 0) :
    pick_gif_for_video_core gifs
        (load_usage (save_usage (pick_gif_for_video_core gifs st vid c1).state))
        vid c2 =
      pick_gif_for_video_core gifs st vid c1 ∧
    dictGet (pick_gif_for_video_core gifs st vid c1).state.video_map vid =
      (pick_gif_for_video_core gifs st vid c1).name := by
  obtain ⟨c, B, hcL, heq⟩ := pick_core_unbound_serves gifs st vid c1 hub hn hne
  obtain ⟨fr, hfr⟩ := dictGet_of_mem_keys hcL
  have hbound : dictGet (st.video_map ++ [(vid, c)]) vid = some c := by
    rw [dictGet_append_of_none _ _ hub]
    simp [dictGet]
  rw [heq]
  constructor
  · simp only [load_usage, save_usage, pick_gif_for_video_core, hbound, hfr,
      Option.getD_some]
  · simpa using hbound

/-- Witness for C2 on the one-asset sample table. -/
theorem pick_gif_for_video_idempotent_witness :
    pick_gif_for_video_core sampleGifs
        (load_usage (save_usage
          (pick_gif_for_video_core sampleGifs ⟨[], []⟩ "video_a.mp4" 0).state))
        "video_a.mp4" 1 =
      pick_gif_for_video_core sampleGifs ⟨[], []⟩ "video_a.mp4" 0 ∧
    dictGet (pick_gif_for_video_core sampleGifs ⟨[], []⟩
        "video_a.mp4" 0).state.video_map "video_a.mp4" =
      (pick_gif_for_video_core sampleGifs ⟨[], []⟩ "video_a.mp4" 0).name :=
  pick_gif_for_video_idempotent sampleGifs ⟨[], []⟩ "video_a.mp4" 0 1
    rfl (by decide) (by decide)

/-! ## C1 — round-robin fairness of asset selection -/

/-- Invariant propagation along a run of `pick_gif_for_video` calls with
pairwise-distinct, unbound job identities: the used list grows by
exactly the served names, stays duplicate-free, and only holds loaded
asset names. -/
theorem pick_run_cycle (gifs : List (String × List GifFrame))
    (hn : (gifs.map Prod.fst).Nodup) :
    ∀ (reqs : List (String × ℕ)) (st : UsageState),
      st.used.Nodup →
      (∀ p ∈ reqs, dictGet st.video_map p.1 = none) →
      (reqs.map Prod.fst).Nodup →
      st.used.length + reqs.length ≤ (gifs.map Prod.fst).length →
      (pick_run gifs reqs st).2.used = st.used ++ (pick_run gifs reqs st).1 ∧
      (st.used ++ (pick_run gifs reqs st).1).Nodup ∧
      ∀ n ∈ (pick_run gifs reqs st).1, n ∈ gifs.map Prod.fst := by
  intro reqs
  induction reqs with
  | nil =>
    intro st hud _ _ _
    refine ⟨by simp [pick_run], by simpa [pick_run] using hud, by simp [pick_run]⟩
  | cons p rest ih =>
    obtain ⟨vid, ch⟩ := p
    intro st hud hfresh hd hlen
    have hub : dictGet st.video_map vid = none :=
      hfresh (vid, ch) (List.mem_cons_self _ _)
    have hlt : st.used.length < (gifs.map Prod.fst).length := by
      simp only [List.length_cons] at hlen
      omega
    obtain ⟨c, hcL, hcU, heq⟩ := pick_core_fresh_step gifs st vid ch hub hn hud hlt
    have hud' : (st.used ++ [c]).Nodup := by
      simp [List.nodup_append, hud, hcU]
    have hdc : vid ∉ rest.map Prod.fst ∧ (rest.map Prod.fst).Nodup := by
      simpa [List.nodup_cons] using hd
    have hfresh' : ∀ q ∈ rest,
        dictGet (st.video_map ++ [(vid, c)]) q.1 = none := by
      intro q hq
      rw [dictGet_append_of_none _ _ (hfresh q (List.mem_cons_of_mem _ hq))]
      have hvq : vid ≠ q.1 := by
        intro hvq
        exact hdc.1 (hvq ▸ List.mem_map_of_mem Prod.fst hq)
      simp [dictGet, hvq]
    have hlen' : (st.used ++ [c]).length + rest.length ≤
        (gifs.map Prod.fst).length := by
      simp only [List.length_append, List.length_cons, List.length_nil] at hlen ⊢
      omega
    obtain ⟨ih1, ih2, ih3⟩ :=
      ih ⟨st.used ++ [c], st.video_map ++ [(vid, c)]⟩ hud' hfresh' hdc.2 hlen'
    have hrun : pick_run gifs ((vid, ch) :: rest) st =
        ([c] ++ (pick_run gifs rest
            ⟨st.used ++ [c], st.video_map ++ [(vid, c)]⟩).1,
          (pick_run gifs rest
            ⟨st.used ++ [c], st.video_map ++ [(vid, c)]⟩).2) := by
      simp [pick_run, heq]
    rw [hrun]
    refine ⟨?_, ?_, ?_⟩
    · simpa [List.append_assoc] using ih1
    · simpa [List.append_assoc] using ih2
    · intro n hnmem
      rcases List.mem_append.mp hnmem with h | h
      · exact (List.mem_singleton.mp h) ▸ hcL
      · exact ih3 n h

/-- C1: along any sequence of `pick_gif_for_video` calls with distinct
unbound job identities and at most `N` calls (N = number of loaded
assets), the served names are pairwise distinct — no asset repeats
before every asset has been served once; and the used set is emptied
exactly when its size has reached `N`: one more call leaves a singleton
used list then, and otherwise grows the used list by one. -/
theorem pick_gif_for_video_cycle_fairness (gifs : List (String × List GifFrame))
    (hn : (gifs.map Prod.fst).Nodup) (reqs : List (String × ℕ))
    (m0 : List (String × String))
    (hfresh : ∀ p ∈ reqs, dictGet m0 p.1 = none)
    (hd : (reqs.map Prod.fst).Nodup)
    (hlen : reqs.length ≤ (gifs.map Prod.fst).length) :
    (pick_run gifs reqs ⟨[], m0⟩).1.Nodup ∧
    (∀ (st : UsageState) (vid : String) (choice : ℕ),
      dictGet st.video_map vid = none → st.used.Nodup →
      (gifs.map Prod.fst).length ≠ 0 →
      (pick_gif_for_video_core gifs st vid choice).state.used.length =
        if (gifs.map Prod.fst).length ≤ st.used.length then 1
        else st.used.length + 1) := by
  constructor
  · have h := pick_run_cycle gifs hn reqs ⟨[], m0⟩ (by simp) hfresh hd
      (by simpa using hlen)
    simpa using h.2.1
  · intro st vid choice hub hud hne
    by_cases hge : (gifs.map Prod.fst).length ≤ st.used.length
    · obtain ⟨c, _, heq⟩ := pick_core_reset_step gifs st vid choice hub hne
        (by rwa [hud.dedup])
      rw [heq, if_pos hge]
      simp
    · obtain ⟨c, _, _, heq⟩ := pick_core_fresh_step gifs st vid choice hub hn hud
        (by omega)
      rw [heq, if_neg hge]
      simp

/-- Witness for C1: two distinct jobs on the two-asset sample table. -/
theorem pick_gif_for_video_cycle_fairness_witness :
    (pick_run sampleGifs2 [("v1", 0), ("v2", 1)] ⟨[], []⟩).1.Nodup ∧
    (∀ (st : UsageState) (vid : String) (choice : ℕ),
      dictGet st.video_map vid = none → st.used.Nodup →
      (sampleGifs2.map Prod.fst).length ≠ 0 →
      (pick_gif_for_video_core sampleGifs2 st vid choice).state.used.length =
        if (sampleGifs2.map Prod.fst).length ≤ st.used.length then 1
        else st.used.length + 1) :=
  pick_gif_for_video_cycle_fairness sampleGifs2 (by decide)
    [("v1", 0), ("v2", 1)] [] (by decide) (by decide) (by decide)

/-! ## Evaluation of `apply_effect_frame` under a bound job identity -/

/-- With the job identity already bound to a loaded asset, the pick is a
pure lookup: it returns the bound asset's frames and leaves the ledger
unchanged. -/
theorem pick_gif_for_video_bound (gifs : List (String × List GifFrame))
    (st : UsageState) (vid : String) (choice : ℕ) (nm : String)
    (gframes : List GifFrame) (hb : dictGet st.video_map vid = some nm)
    (hnm : dictGet gifs nm = some gframes) :
    pick_gif_for_video gifs st vid choice = (gframes, st) := by
  simp [pick_gif_for_video, pick_gif_for_video_core, hb, hnm]

/-- Before the start of the effect window the frame passes through
unchanged. -/
theorem apply_effect_frame_eq_of_early (gifs : List (String × List GifFrame))
    (st : UsageState) (frame : Frame) (frame_idx fps : ℕ) (vid : String)
    (choice : ℕ) (nm : String) (gframes : List GifFrame)
    (hb : dictGet st.video_map vid = some nm)
    (hnm : dictGet gifs nm = some gframes)
    (hg : gifs.length ≠ 0)
    (ht : (frame_idx : ℚ) / (fps : ℚ) < 1) :
    apply_effect_frame gifs st frame frame_idx fps vid choice = (frame, st) := by
  simp only [apply_effect_frame, pick_gif_for_video_bound gifs st vid choice nm
    gframes hb hnm, if_neg hg, if_pos ht]
  split <;> rfl

/-- After the end of the effect window the frame passes through
unchanged. -/
theorem apply_effect_frame_eq_of_late (gifs : List (String × List GifFrame))
    (st : UsageState) (frame : Frame) (frame_idx fps : ℕ) (vid : String)
    (choice : ℕ) (nm : String) (gframes : List GifFrame)
    (hb : dictGet st.video_map vid = some nm)
    (hnm : dictGet gifs nm = some gframes)
    (hg : gifs.length ≠ 0)
    (ht : (5 : ℚ) < (frame_idx : ℚ) / (fps : ℚ) - 1) :
    apply_effect_frame gifs st frame frame_idx fps vid choice = (frame, st) := by
  have ht1 : ¬((frame_idx : ℚ) / (fps : ℚ) < 1) := by
    intro h
    have : (0 : ℚ) ≤ (frame_idx : ℚ) / (fps : ℚ) := by positivity
    linarith
  simp only [apply_effect_frame, pick_gif_for_video_bound gifs st vid choice nm
    gframes hb hnm, if_neg hg, if_neg ht1, if_pos ht]
  split <;> rfl

/-- Inside the effect window `apply_effect_frame` blends the selected
asset frame into the bottom-right corner with 12px padding. -/
theorem apply_effect_frame_eq_of_shown (gifs : List (String × List GifFrame))
    (st : UsageState) (frame : Frame) (frame_idx fps : ℕ) (vid : String)
    (choice : ℕ) (nm : String) (gframes : List GifFrame) (ov : GifFrame)
    (hb : dictGet st.video_map vid = some nm)
    (hnm : dictGet gifs nm = some gframes)
    (hg : gifs.length ≠ 0) (hgf : gframes.length ≠ 0)
    (h1 : ¬((frame_idx : ℚ) / (fps : ℚ) < 1))
    (h2 : ¬((5 : ℚ) < (frame_idx : ℚ) / (fps : ℚ) - 1))
    (hov : gframes.getD
        (((pyInt ((((frame_idx : ℚ) / (fps : ℚ) - 1) / 5) *
            ((gframes.length : ℤ) : ℚ))).emod (gframes.length : ℤ)).toNat)
        ⟨0, 0, fun _ _ _ => 0⟩ = ov) :
    apply_effect_frame gifs st frame frame_idx fps vid choice =
      (overlay_transparent frame ov ((frame.width : ℤ) - ov.width - 12)
        ((frame.height : ℤ) - ov.height - 12), st) := by
  simp only [apply_effect_frame, pick_gif_for_video_bound gifs st vid choice nm
    gframes hb hnm, if_neg hg, if_neg hgf, if_neg h1, if_neg h2, hov]

/-! ## C3 — temporal gating (corrected: the window is closed) -/

/-- C3 counterexample: the claim asserts that at fps=30 frame 179
(t ≈ 5.97 s) yields no overlay, but the code applies the overlay there —
the output frame differs from the input frame at pixel (51, 51, 0). -/
theorem apply_effect_frame_window_counterexample :
    (apply_effect_frame sampleGifs sampleUsage sampleFrame 179 30
        "v" 0).1.pixel 51 51 0 = 255 ∧
      sampleFrame.pixel 51 51 0 = 0 := by
  have hov : [sampleOverlay].getD
      (((pyInt (((((179 : ℕ) : ℚ) / ((30 : ℕ) : ℚ) - 1) / 5) *
          ((([sampleOverlay].length : ℤ) : ℚ)))).emod
        ([sampleOverlay].length : ℤ)).toNat)
      ⟨0, 0, fun _ _ _ => 0⟩ = sampleOverlay := by
    have hp : pyInt (((((179 : ℕ) : ℚ) / ((30 : ℕ) : ℚ) - 1) / 5) *
        ((([sampleOverlay].length : ℤ) : ℚ))) = 0 := by
      norm_num [pyInt]
      decide
    rw [hp]
    rfl
  have h := apply_effect_frame_eq_of_shown sampleGifs sampleUsage sampleFrame
    179 30 "v" 0 "g.gif" [sampleOverlay] sampleOverlay
    (by simp [dictGet, sampleUsage]) (by simp [dictGet, sampleGifs])
    (by decide) (by decide) (by norm_num) (by norm_num) hov
  rw [h]
  refine ⟨?_, rfl⟩
  norm_num [overlay_transparent, sampleFrame, sampleOverlay]

/-- C3 (amended): the overlay window is the closed interval
`[1 s, 6 s]` of elapsed time `t = frameIndex / fps`: for `t < 1` and for
`t > 6` the frame is returned unchanged, while for `1 ≤ t ≤ 6` the
selected overlay frame is alpha-blended at the bottom-right corner (so
at fps=30, frames 30, 179 and 180 all carry the overlay and frames 29
and 181 do not). -/
theorem apply_effect_frame_gating_closed (gifs : List (String × List GifFrame))
    (st : UsageState) (frame : Frame) (frame_idx fps : ℕ) (vid : String)
    (choice : ℕ) (nm : String) (gframes : List GifFrame)
    (hb : dictGet st.video_map vid = some nm)
    (hnm : dictGet gifs nm = some gframes)
    (hg : gifs.length ≠ 0) (hgf : gframes.length ≠ 0) :
    ((frame_idx : ℚ) / (fps : ℚ) < 1 →
      apply_effect_frame gifs st frame frame_idx fps vid choice = (frame, st)) ∧
    (6 < (frame_idx : ℚ) / (fps : ℚ) →
      apply_effect_frame gifs st frame frame_idx fps vid choice = (frame, st)) ∧
    (1 ≤ (frame_idx : ℚ) / (fps : ℚ) → (frame_idx : ℚ) / (fps : ℚ) ≤ 6 →
      ∀ ov, gframes.getD
          (((pyInt ((((frame_idx : ℚ) / (fps : ℚ) - 1) / 5) *
              ((gframes.length : ℤ) : ℚ))).emod (gframes.length : ℤ)).toNat)
          ⟨0, 0, fun _ _ _ => 0⟩ = ov →
        apply_effect_frame gifs st frame frame_idx fps vid choice =
          (overlay_transparent frame ov ((frame.width : ℤ) - ov.width - 12)
            ((frame.height : ℤ) - ov.height - 12), st)) := by
  refine ⟨?_, ?_, ?_⟩
  · exact fun ht => apply_effect_frame_eq_of_early gifs st frame frame_idx fps
      vid choice nm gframes hb hnm hg ht
  · intro ht
    exact apply_effect_frame_eq_of_late gifs st frame frame_idx fps vid choice
      nm gframes hb hnm hg (by linarith)
  · intro ht1 ht2 ov hov
    exact apply_effect_frame_eq_of_shown gifs st frame frame_idx fps vid choice
      nm gframes ov hb hnm hg hgf (not_lt.mpr ht1)
      (not_lt.mpr (by linarith)) hov

/-- Witness for the amended C3: at fps=30 frame 180 (t = 6.0 s exactly)
still carries overlay frame 0, and frame 29 passes through unchanged. -/
theorem apply_effect_frame_gating_closed_witness :
    apply_effect_frame sampleGifs sampleUsage sampleFrame 180 30 "v" 0 =
      (overlay_transparent sampleFrame sampleOverlay 51 51, sampleUsage) ∧
    apply_effect_frame sampleGifs sampleUsage sampleFrame 29 30 "v" 0 =
      (sampleFrame, sampleUsage) := by
  constructor
  · have hov : [sampleOverlay].getD
        (((pyInt (((((180 : ℕ) : ℚ) / ((30 : ℕ) : ℚ) - 1) / 5) *
            ((([sampleOverlay].length : ℤ) : ℚ)))).emod
          ([sampleOverlay].length : ℤ)).toNat)
        ⟨0, 0, fun _ _ _ => 0⟩ = sampleOverlay := by
      have hp : pyInt (((((180 : ℕ) : ℚ) / ((30 : ℕ) : ℚ) - 1) / 5) *
          ((([sampleOverlay].length : ℤ) : ℚ))) = 1 := by
        norm_num [pyInt]
      rw [hp]
      rfl
    have h := (apply_effect_frame_gating_closed sampleGifs sampleUsage
        sampleFrame 180 30 "v" 0 "g.gif" [sampleOverlay]
        (by simp [dictGet, sampleUsage]) (by simp [dictGet, sampleGifs])
        (by decide) (by decide)).2.2 (by norm_num) (by norm_num)
      sampleOverlay hov
    rw [h]
    norm_num [sampleFrame, sampleOverlay]
  · exact (apply_effect_frame_gating_closed sampleGifs sampleUsage sampleFrame
      29 30 "v" 0 "g.gif" [sampleOverlay]
      (by simp [dictGet, sampleUsage]) (by simp [dictGet, sampleGifs])
      (by decide) (by decide)).1 (by norm_num)

/-! ## C8 — bottom-right placement with 12px padding -/

/-- C8: inside the effect window the overlay's top-left corner is
`(W − w − 12, H − h − 12)`; and whenever that position would put the
overlay outside the frame (negative x or y — the only way this
placement can leave the frame) the blend is a no-op rather than a
clamped or cropped draw. -/
theorem apply_effect_frame_placement (gifs : List (String × List GifFrame))
    (st : UsageState) (frame : Frame) (frame_idx fps : ℕ) (vid : String)
    (choice : ℕ) (nm : String) (gframes : List GifFrame) (ov : GifFrame)
    (hb : dictGet st.video_map vid = some nm)
    (hnm : dictGet gifs nm = some gframes)
    (hg : gifs.length ≠ 0) (hgf : gframes.length ≠ 0)
    (h1 : 1 ≤ (frame_idx : ℚ) / (fps : ℚ))
    (h2 : (frame_idx : ℚ) / (fps : ℚ) ≤ 6)
    (hov : gframes.getD
        (((pyInt ((((frame_idx : ℚ) / (fps : ℚ) - 1) / 5) *
            ((gframes.length : ℤ) : ℚ))).emod (gframes.length : ℤ)).toNat)
        ⟨0, 0, fun _ _ _ => 0⟩ = ov) :
    apply_effect_frame gifs st frame frame_idx fps vid choice =
      (overlay_transparent frame ov ((frame.width : ℤ) - ov.width - 12)
        ((frame.height : ℤ) - ov.height - 12), st) ∧
    (∀ (b : Frame) (o : GifFrame),
      (b.width : ℤ) - o.width - 12 < 0 ∨ (b.height : ℤ) - o.height - 12 < 0 →
      overlay_transparent b o ((b.width : ℤ) - o.width - 12)
        ((b.height : ℤ) - o.height - 12) = b) := by
  constructor
  · exact apply_effect_frame_eq_of_shown gifs st frame frame_idx fps vid choice
      nm gframes ov hb hnm hg hgf (not_lt.mpr h1)
      (not_lt.mpr (by linarith)) hov
  · intro b o hout
    cases hout with
    | inl h =>
      simp only [overlay_transparent]
      rw [if_pos (Or.inr (Or.inr (Or.inr h)))]
    | inr h =>
      simp only [overlay_transparent]
      rw [if_pos (Or.inr (Or.inr (Or.inl h)))]

/-- Witness for C8: a 320×180 overlay on a 1280×720 frame lands at
(948, 528). -/
theorem apply_effect_frame_placement_witness :
    apply_effect_frame sampleGifsHD sampleUsage sampleFrameHD 60 30 "v" 0 =
      (overlay_transparent sampleFrameHD sampleOverlayHD 948 528, sampleUsage) := by
  have hov : [sampleOverlayHD].getD
      (((pyInt (((((60 : ℕ) : ℚ) / ((30 : ℕ) : ℚ) - 1) / 5) *
          ((([sampleOverlayHD].length : ℤ) : ℚ)))).emod
        ([sampleOverlayHD].length : ℤ)).toNat)
      ⟨0, 0, fun _ _ _ => 0⟩ = sampleOverlayHD := by
    have hp : pyInt (((((60 : ℕ) : ℚ) / ((30 : ℕ) : ℚ) - 1) / 5) *
        ((([sampleOverlayHD].length : ℤ) : ℚ))) = 0 := by
      norm_num [pyInt]
      decide
    rw [hp]
    rfl
  have h := (apply_effect_frame_placement sampleGifsHD sampleUsage sampleFrameHD
      60 30 "v" 0 "g.gif" [sampleOverlayHD] sampleOverlayHD
      (by simp [dictGet, sampleUsage]) (by simp [dictGet, sampleGifsHD])
      (by decide) (by decide) (by norm_num) (by norm_num) hov).1
  rw [h]
  norm_num [sampleFrameHD, sampleOverlayHD]

end AddCaptions
